import Mathlib

/-!
Shallow embedding of the TCP-handshake protocol verifier
(`automata.py`: `FiniteStateMachine` and `ProtocolVerifier`).

States are the closed enumeration used by the Python class; symbols are
free-form strings.  The Python object state (`current_state`, `history`,
`transitions`) is an explicit `FSM` record threaded through each
operation; every mutating method returns the updated record together
with its Python return value.
-/

/-- The state set of `FiniteStateMachine.states`. -/
inductive State where
  | CLOSED
  | LISTEN
  | SYN_SENT
  | SYN_RECEIVED
  | ESTABLISHED
  | ERROR
  deriving DecidableEq, Repr

/-- `state_names` reverse mapping: the printable name of a state
(`get_state_name` on a known state). -/
def stateName : State → String
  | State.CLOSED => "CLOSED"
  | State.LISTEN => "LISTEN"
  | State.SYN_SENT => "SYN_SENT"
  | State.SYN_RECEIVED => "SYN_RECEIVED"
  | State.ESTABLISHED => "ESTABLISHED"
  | State.ERROR => "ERROR"

/-- One entry of the instance attribute `history` appended by
`transition`. -/
structure HistoryRecord where
  input : String
  from_state : String
  to_state : String
  valid : Bool
  deriving DecidableEq, Repr

/-- The `FiniteStateMachine` instance state: the mutable cursor, the
step log, and the transition table built in `__init__`. -/
structure FSM where
  current_state : State
  history : List HistoryRecord
  transitions : List ((State × String) × State)
  deriving DecidableEq, Repr

/-- The transition table literal of `FiniteStateMachine.__init__`,
in its insertion order. -/
def initTransitions : List ((State × String) × State) :=
  [ ((State.CLOSED, "LISTEN"), State.LISTEN),
    ((State.LISTEN, "SYN"), State.SYN_RECEIVED),
    ((State.SYN_RECEIVED, "SYN-ACK"), State.SYN_RECEIVED),
    ((State.SYN_RECEIVED, "ACK"), State.ESTABLISHED),
    ((State.CLOSED, "SYN"), State.SYN_SENT),
    ((State.SYN_SENT, "SYN-ACK"), State.ESTABLISHED) ]

/-- Python dict lookup `self.transitions[key]` guarded by
`key in self.transitions`: first matching key wins (keys are unique in
the literal, so this is the dict lookup). -/
def lookupT : List ((State × String) × State) → (State × String) → Option State
  | [], _ => none
  | (k, v) :: rest, key => if key = k then some v else lookupT rest key

/-- `list(self.states.keys())` in insertion order. -/
def statesList : List String :=
  ["CLOSED", "LISTEN", "SYN_SENT", "SYN_RECEIVED", "ESTABLISHED", "ERROR"]

/-- A freshly constructed `FiniteStateMachine()`. -/
def FSM.init : FSM :=
  ⟨State.CLOSED, [], initTransitions⟩

/-- `reset()`: back to `CLOSED`, clear `history`; the table is
untouched. -/
def FSM.reset (fsm : FSM) : FSM :=
  { fsm with current_state := State.CLOSED, history := [] }

/-- The tuple returned by `transition`:
`(success, old_state, new_state, message)`. -/
structure TransitionOutcome where
  success : Bool
  old_state : String
  new_state : String
  message : String
  deriving DecidableEq, Repr

/-- `FiniteStateMachine.transition`: table lookup on
`(current_state, input_symbol)`; a hit moves to the mapped successor
and logs a valid record, a miss moves to `ERROR` and logs an invalid
record.  Returns the updated instance and the Python return tuple. -/
def FSM.transition (fsm : FSM) (input_symbol : String) : FSM × TransitionOutcome :=
  let old_state := fsm.current_state
  let old_state_name := stateName old_state
  match lookupT fsm.transitions (old_state, input_symbol) with
  | some t =>
      let new_state_name := stateName t
      ({ fsm with
           current_state := t,
           history := fsm.history ++
             [⟨input_symbol, old_state_name, new_state_name, true⟩] },
       ⟨true, old_state_name, new_state_name,
         "Valid transition: " ++ old_state_name ++ " -> " ++ input_symbol
           ++ " -> " ++ new_state_name⟩)
  | none =>
      ({ fsm with
           current_state := State.ERROR,
           history := fsm.history ++
             [⟨input_symbol, old_state_name, "ERROR", false⟩] },
       ⟨false, old_state_name, "ERROR",
         "Invalid transition: No rule for " ++ old_state_name
           ++ " with input \x27" ++ input_symbol ++ "\x27"⟩)

/-- One element of the `steps` list built by `verify_sequence`. -/
structure Step where
  packet : String
  old_state : String
  new_state : String
  valid : Bool
  message : String
  deriving DecidableEq, Repr

/-- The tuple `(is_valid, steps, final_state)` returned by
`verify_sequence`. -/
structure VerifyResult where
  accepted : Bool
  steps : List Step
  final_state : String
  deriving DecidableEq, Repr

/-- The `for packet in packet_sequence` loop of `verify_sequence`,
after the initial `reset()`: step each packet, collect a `Step`, return
early on the first failure, and on normal exit accept exactly when the
cursor sits on `ESTABLISHED`. -/
def FSM.verifyLoop (fsm : FSM) : List String → FSM × VerifyResult
  | [] =>
      (fsm, ⟨fsm.current_state == State.ESTABLISHED, [],
             stateName fsm.current_state⟩)
  | p :: rest =>
      let tr := fsm.transition p
      let fsm1 := tr.1
      let out := tr.2
      let step : Step := ⟨p, out.old_state, out.new_state, out.success, out.message⟩
      if out.success then
        let r := fsm1.verifyLoop rest
        (r.1, ⟨r.2.accepted, step :: r.2.steps, r.2.final_state⟩)
      else
        (fsm1, ⟨false, [step], stateName fsm1.current_state⟩)

/-- `FiniteStateMachine.verify_sequence`: reset, then run the loop. -/
def FSM.verify_sequence (fsm : FSM) (packet_sequence : List String) : FSM × VerifyResult :=
  FSM.verifyLoop fsm.reset packet_sequence

/-- One entry of `get_all_transitions`. -/
structure TransEntry where
  fromState : String
  toState : String
  label : String
  deriving DecidableEq, Repr

/-- `get_all_transitions`: one `{from, to, label}` record per table
entry, in table order. -/
def FSM.get_all_transitions (fsm : FSM) : List TransEntry :=
  fsm.transitions.map (fun kv => ⟨stateName kv.1.1, stateName kv.2, kv.1.2⟩)

/-- The `ProtocolVerifier` instance: it owns one engine. -/
structure ProtocolVerifier where
  fsm : FSM
  deriving DecidableEq, Repr

/-- The dict returned by `verify_tcp_handshake`. -/
structure VerificationReport where
  valid : Bool
  steps : List Step
  final_state : String
  message : String
  deriving DecidableEq, Repr

/-- `ProtocolVerifier.verify_tcp_handshake`: delegate to
`verify_sequence` and wrap the result with the summary message. -/
def ProtocolVerifier.verify_tcp_handshake (v : ProtocolVerifier) (packets : List String) :
    ProtocolVerifier × VerificationReport :=
  let r := v.fsm.verify_sequence packets
  (⟨r.1⟩,
   ⟨r.2.accepted, r.2.steps, r.2.final_state,
    if r.2.accepted then "Valid TCP handshake" else "Invalid packet sequence"⟩)

/-- The dict returned by `get_transition_diagram`. -/
structure TransitionDiagram where
  states : List String
  transitions : List TransEntry
  initial_state : String
  accepting_states : List String
  deriving DecidableEq, Repr

/-- `ProtocolVerifier.get_transition_diagram`. -/
def ProtocolVerifier.get_transition_diagram (v : ProtocolVerifier) : TransitionDiagram :=
  ⟨statesList, v.fsm.get_all_transitions, "CLOSED", ["ESTABLISHED"]⟩

theorem transition_transitions (fsm : FSM) (p : String) :
    (fsm.transition p).1.transitions = fsm.transitions := by
  cases h : lookupT fsm.transitions (fsm.current_state, p) <;>
    simp [FSM.transition, h]

theorem verifyLoop_transitions (l : List String) :
    ∀ fsm : FSM, (fsm.verifyLoop l).1.transitions = fsm.transitions := by
  induction l with
  | nil => intro fsm; rfl
  | cons p rest ih =>
      intro fsm
      by_cases h : (fsm.transition p).2.success
      · simp [FSM.verifyLoop, h, ih, transition_transitions]
      · simp [FSM.verifyLoop, h, transition_transitions]

theorem verifyLoop_final (l : List String) :
    ∀ fsm : FSM,
      (fsm.verifyLoop l).2.final_state = stateName (fsm.verifyLoop l).1.current_state := by
  induction l with
  | nil => intro fsm; rfl
  | cons p rest ih =>
      intro fsm
      by_cases h : (fsm.transition p).2.success
      · have hrec := ih (fsm.transition p).1
        simp [FSM.verifyLoop, h, hrec]
      · simp [FSM.verifyLoop, h]

theorem lookup_error_none (sym : String) :
    lookupT initTransitions (State.ERROR, sym) = none := by
  simp [initTransitions, lookupT]

theorem lookup_ne_error (s : State) (sym : String) (t : State)
    (h : lookupT initTransitions (s, sym) = some t) : t ≠ State.ERROR := by
  simp only [initTransitions, lookupT] at h
  split_ifs at h <;> simp_all <;> subst h <;> decide

theorem transition_some (fsm : FSM) (p : String) (t : State)
    (hl : lookupT fsm.transitions (fsm.current_state, p) = some t) :
    (fsm.transition p).1.current_state = t ∧ (fsm.transition p).2.success = true := by
  simp [FSM.transition, hl]

theorem transition_none (fsm : FSM) (p : String)
    (hl : lookupT fsm.transitions (fsm.current_state, p) = none) :
    (fsm.transition p).1.current_state = State.ERROR ∧
    (fsm.transition p).2.success = false ∧
    (fsm.transition p).2.new_state = "ERROR" := by
  simp [FSM.transition, hl]

theorem verifyLoop_cons_success (fsm : FSM) (p : String) (rest : List String)
    (h : (fsm.transition p).2.success = true) :
    fsm.verifyLoop (p :: rest) =
      (((fsm.transition p).1.verifyLoop rest).1,
       ⟨((fsm.transition p).1.verifyLoop rest).2.accepted,
        ⟨p, (fsm.transition p).2.old_state, (fsm.transition p).2.new_state,
         (fsm.transition p).2.success, (fsm.transition p).2.message⟩ ::
          ((fsm.transition p).1.verifyLoop rest).2.steps,
        ((fsm.transition p).1.verifyLoop rest).2.final_state⟩) := by
  simp [FSM.verifyLoop, h]

theorem verifyLoop_cons_failure (fsm : FSM) (p : String) (rest : List String)
    (h : (fsm.transition p).2.success = false) :
    fsm.verifyLoop (p :: rest) =
      ((fsm.transition p).1,
       ⟨false,
        [⟨p, (fsm.transition p).2.old_state, (fsm.transition p).2.new_state,
          (fsm.transition p).2.success, (fsm.transition p).2.message⟩],
        stateName (fsm.transition p).1.current_state⟩) := by
  simp [FSM.verifyLoop, h]

theorem verifyLoop_cons_success_steps (fsm : FSM) (p : String) (rest : List String)
    (h : (fsm.transition p).2.success = true) :
    (fsm.verifyLoop (p :: rest)).2.steps =
      ⟨p, (fsm.transition p).2.old_state, (fsm.transition p).2.new_state,
       (fsm.transition p).2.success, (fsm.transition p).2.message⟩ ::
        ((fsm.transition p).1.verifyLoop rest).2.steps := by
  rw [verifyLoop_cons_success fsm p rest h]

theorem verifyLoop_cons_success_accepted (fsm : FSM) (p : String) (rest : List String)
    (h : (fsm.transition p).2.success = true) :
    (fsm.verifyLoop (p :: rest)).2.accepted
      = ((fsm.transition p).1.verifyLoop rest).2.accepted := by
  rw [verifyLoop_cons_success fsm p rest h]

theorem verifyLoop_cons_success_final (fsm : FSM) (p : String) (rest : List String)
    (h : (fsm.transition p).2.success = true) :
    (fsm.verifyLoop (p :: rest)).2.final_state
      = ((fsm.transition p).1.verifyLoop rest).2.final_state := by
  rw [verifyLoop_cons_success fsm p rest h]

theorem verifyLoop_cons_failure_steps (fsm : FSM) (p : String) (rest : List String)
    (h : (fsm.transition p).2.success = false) :
    (fsm.verifyLoop (p :: rest)).2.steps =
      [⟨p, (fsm.transition p).2.old_state, (fsm.transition p).2.new_state,
        (fsm.transition p).2.success, (fsm.transition p).2.message⟩] := by
  rw [verifyLoop_cons_failure fsm p rest h]

theorem verifyLoop_cons_failure_accepted (fsm : FSM) (p : String) (rest : List String)
    (h : (fsm.transition p).2.success = false) :
    (fsm.verifyLoop (p :: rest)).2.accepted = false := by
  rw [verifyLoop_cons_failure fsm p rest h]

theorem verifyLoop_cons_failure_final (fsm : FSM) (p : String) (rest : List String)
    (h : (fsm.transition p).2.success = false) :
    (fsm.verifyLoop (p :: rest)).2.final_state
      = stateName (fsm.transition p).1.current_state := by
  rw [verifyLoop_cons_failure fsm p rest h]

theorem getLast?_cons_of_ne_nil {α : Type} (a : α) {l : List α} (h : l ≠ []) :
    (a :: l).getLast? = l.getLast? := by
  cases l with
  | nil => exact absurd rfl h
  | cons b bs => exact List.getLast?_cons_cons

theorem verifyLoop_valid (l : List String) :
    ∀ fsm : FSM, fsm.transitions = initTransitions →
      fsm.current_state ≠ State.ERROR →
      (∀ s ∈ (fsm.verifyLoop l).2.steps, s.valid = true) →
      (fsm.verifyLoop l).1.current_state ≠ State.ERROR ∧
      (fsm.verifyLoop l).2.accepted
        = ((fsm.verifyLoop l).1.current_state == State.ESTABLISHED) := by
  induction l with
  | nil => intro fsm _ hc _; exact ⟨hc, rfl⟩
  | cons p rest ih =>
      intro fsm ht hc hv
      cases hl : lookupT fsm.transitions (fsm.current_state, p) with
      | none =>
          exfalso
          have hf := transition_none fsm p hl
          rw [verifyLoop_cons_failure fsm p rest hf.2.1] at hv
          have := hv _ (List.mem_singleton.mpr rfl)
          rw [hf.2.1] at this
          exact Bool.false_ne_true this
      | some t =>
          have hs := transition_some fsm p t hl
          have ht1 : (fsm.transition p).1.transitions = initTransitions := by
            rw [transition_transitions]; exact ht
          have htne : t ≠ State.ERROR := lookup_ne_error _ _ _ (ht ▸ hl)
          rw [verifyLoop_cons_success fsm p rest hs.2] at hv ⊢
          have hv1 : ∀ s ∈ ((fsm.transition p).1.verifyLoop rest).2.steps, s.valid = true := by
            intro s hsm
            exact hv s (List.mem_cons_of_mem _ hsm)
          exact ih _ ht1 (hs.1 ▸ htne) hv1

theorem verifyLoop_spec (l : List String) :
    ∀ fsm : FSM,
      ((fsm.verifyLoop l).2.steps.map Step.packet
          = l.take (fsm.verifyLoop l).2.steps.length) ∧
      (∀ s ∈ (fsm.verifyLoop l).2.steps.dropLast, s.valid = true) ∧
      ((∃ s ∈ (fsm.verifyLoop l).2.steps, s.valid = false) →
          (fsm.verifyLoop l).2.accepted = false ∧
          (fsm.verifyLoop l).2.final_state = "ERROR" ∧
          ∃ st, (fsm.verifyLoop l).2.steps.getLast? = some st ∧ st.valid = false) ∧
      ((fsm.verifyLoop l).2.steps.length < l.length →
          ∃ st, (fsm.verifyLoop l).2.steps.getLast? = some st ∧ st.valid = false) := by
  induction l with
  | nil =>
      intro fsm
      refine ⟨rfl, ?_, ?_, ?_⟩
      · intro s hs; simp [FSM.verifyLoop] at hs
      · rintro ⟨s, hs, -⟩; simp [FSM.verifyLoop] at hs
      · intro h; simp [FSM.verifyLoop] at h
  | cons p rest ih =>
      intro fsm
      cases hb : (fsm.transition p).2.success with
      | false =>
          have hcur : (fsm.transition p).1.current_state = State.ERROR := by
            cases hl : lookupT fsm.transitions (fsm.current_state, p) with
            | none => exact (transition_none fsm p hl).1
            | some t =>
                exact absurd ((transition_some fsm p t hl).2) (by simp [hb])
          have hsteps := verifyLoop_cons_failure_steps fsm p rest hb
          have hacc := verifyLoop_cons_failure_accepted fsm p rest hb
          have hfin := verifyLoop_cons_failure_final fsm p rest hb
          refine ⟨?_, ?_, ?_, ?_⟩
          · rw [hsteps]; simp
          · rw [hsteps]; simp
          · intro _
            refine ⟨hacc, ?_, ?_⟩
            · rw [hfin, hcur]; rfl
            · rw [hsteps]; exact ⟨_, rfl, hb⟩
          · intro _
            rw [hsteps]; exact ⟨_, rfl, hb⟩
      | true =>
          obtain ⟨ih1, ih2, ih3, ih4⟩ := ih (fsm.transition p).1
          have hsteps := verifyLoop_cons_success_steps fsm p rest hb
          have hacc := verifyLoop_cons_success_accepted fsm p rest hb
          have hfin := verifyLoop_cons_success_final fsm p rest hb
          refine ⟨?_, ?_, ?_, ?_⟩
          · rw [hsteps]
            simpa using ih1
          · intro s hs
            rw [hsteps] at hs
            cases hst : ((fsm.transition p).1.verifyLoop rest).2.steps with
            | nil => rw [hst] at hs; simp at hs
            | cons b bs =>
                rw [hst, List.dropLast_cons₂] at hs
                rcases List.mem_cons.mp hs with h1 | h2
                · subst h1; exact hb
                · apply ih2; rw [hst]; exact h2
          · rintro ⟨s, hsm, hsv⟩
            rw [hsteps] at hsm
            rcases List.mem_cons.mp hsm with h1 | h2
            · exfalso; subst h1; simp [hb] at hsv
            · obtain ⟨ha, hf, st, hlast, hstv⟩ := ih3 ⟨s, h2, hsv⟩
              refine ⟨?_, ?_, st, ?_, hstv⟩
              · rw [hacc]; exact ha
              · rw [hfin]; exact hf
              · rw [hsteps, getLast?_cons_of_ne_nil _ (List.ne_nil_of_mem h2)]
                exact hlast
          · intro hlen
            rw [hsteps] at hlen
            simp only [List.length_cons, List.length_cons,
              Nat.add_lt_add_iff_right] at hlen
            obtain ⟨st, hlast, hstv⟩ := ih4 hlen
            have hne : ((fsm.transition p).1.verifyLoop rest).2.steps ≠ [] := by
              intro hnil; rw [hnil] at hlast; cases hlast
            refine ⟨st, ?_, hstv⟩
            rw [hsteps, getLast?_cons_of_ne_nil _ hne]
            exact hlast

theorem stateName_beq_established (s : State) :
    (stateName s == "ESTABLISHED") = (s == State.ESTABLISHED) := by
  cases s <;> decide

theorem stateName_ne_error {s : State} (h : s ≠ State.ERROR) :
    stateName s ≠ "ERROR" := by
  cases s
  case ERROR => exact absurd rfl h
  all_goals decide

theorem verifyLoop_nil_accepted (fsm : FSM) :
    (fsm.verifyLoop []).2.accepted = (fsm.current_state == State.ESTABLISHED) := rfl

theorem verifyLoop_nil_final (fsm : FSM) :
    (fsm.verifyLoop []).2.final_state = stateName fsm.current_state := rfl

theorem verifyLoop_synack (n : Nat) :
    ∀ fsm : FSM, fsm.transitions = initTransitions →
      fsm.current_state = State.SYN_RECEIVED →
      (fsm.verifyLoop (List.replicate n "SYN-ACK" ++ ["ACK"])).2.accepted = true ∧
      (fsm.verifyLoop (List.replicate n "SYN-ACK" ++ ["ACK"])).2.final_state
        = "ESTABLISHED" := by
  induction n with
  | zero =>
      intro fsm ht hc
      have hl : lookupT fsm.transitions (fsm.current_state, "ACK")
          = some State.ESTABLISHED := by rw [ht, hc]; rfl
      have hs := transition_some fsm "ACK" _ hl
      simp only [List.replicate, List.nil_append]
      constructor
      · rw [verifyLoop_cons_success_accepted _ _ _ hs.2, verifyLoop_nil_accepted, hs.1]
        rfl
      · rw [verifyLoop_cons_success_final _ _ _ hs.2, verifyLoop_nil_final, hs.1]
        rfl
  | succ n ihn =>
      intro fsm ht hc
      have hrep : List.replicate (n + 1) "SYN-ACK" ++ ["ACK"]
          = "SYN-ACK" :: (List.replicate n "SYN-ACK" ++ ["ACK"]) := by
        simp [List.replicate_succ]
      rw [hrep]
      have hl : lookupT fsm.transitions (fsm.current_state, "SYN-ACK")
          = some State.SYN_RECEIVED := by rw [ht, hc]; rfl
      have hs := transition_some fsm "SYN-ACK" _ hl
      have ht1 : (fsm.transition "SYN-ACK").1.transitions = initTransitions := by
        rw [transition_transitions]; exact ht
      obtain ⟨ha, hf⟩ := ihn (fsm.transition "SYN-ACK").1 ht1 hs.1
      exact ⟨by rw [verifyLoop_cons_success_accepted _ _ _ hs.2]; exact ha,
             by rw [verifyLoop_cons_success_final _ _ _ hs.2]; exact hf⟩

/-- C1: the server-side sequence ["LISTEN", "SYN", "ACK"] and the
client-side sequence ["SYN", "SYN-ACK"] are both accepted by
`verify_sequence`: `accepted = true`, `final_state = ESTABLISHED`, and
every step in the returned step list is valid. -/
theorem server_and_client_handshakes_accepted :
    (FSM.init.verify_sequence ["LISTEN", "SYN", "ACK"]).2.accepted = true ∧
    (FSM.init.verify_sequence ["LISTEN", "SYN", "ACK"]).2.final_state = "ESTABLISHED" ∧
    (∀ s ∈ (FSM.init.verify_sequence ["LISTEN", "SYN", "ACK"]).2.steps, s.valid = true) ∧
    (FSM.init.verify_sequence ["LISTEN", "SYN", "ACK"]).2.steps.length = 3 ∧
    (FSM.init.verify_sequence ["SYN", "SYN-ACK"]).2.accepted = true ∧
    (FSM.init.verify_sequence ["SYN", "SYN-ACK"]).2.final_state = "ESTABLISHED" ∧
    (∀ s ∈ (FSM.init.verify_sequence ["SYN", "SYN-ACK"]).2.steps, s.valid = true) := by
  decide

/-- C2: whenever every step of a `verify_sequence` run is valid, the
final state is not ERROR and acceptance is exactly "final state is
ESTABLISHED"; in particular ["LISTEN", "SYN"] ends in SYN_RECEIVED with
all steps valid and `accepted = false`, so the incomplete outcome is
observably distinct from the rejection outcome. -/
theorem all_valid_incomplete_not_accepted (seq : List String)
    (h : ∀ s ∈ (FSM.init.verify_sequence seq).2.steps, s.valid = true) :
    (FSM.init.verify_sequence seq).2.accepted
        = ((FSM.init.verify_sequence seq).2.final_state == "ESTABLISHED") ∧
    (FSM.init.verify_sequence seq).2.final_state ≠ "ERROR" ∧
    (FSM.init.verify_sequence ["LISTEN", "SYN"]).2.accepted = false ∧
    (FSM.init.verify_sequence ["LISTEN", "SYN"]).2.final_state = "SYN_RECEIVED" ∧
    (∀ s ∈ (FSM.init.verify_sequence ["LISTEN", "SYN"]).2.steps, s.valid = true) := by
  simp only [FSM.verify_sequence] at h ⊢
  obtain ⟨hne, hacc⟩ := verifyLoop_valid seq FSM.init.reset rfl (by decide) h
  have hfin := verifyLoop_final seq FSM.init.reset
  refine ⟨?_, ?_, by decide, by decide, by decide⟩
  · rw [hfin, stateName_beq_established]
    exact hacc
  · rw [hfin]
    exact stateName_ne_error hne

/-- Witness for C2 at the concrete input ["LISTEN", "SYN"]. -/
theorem all_valid_incomplete_not_accepted_witness :
    (FSM.init.verify_sequence ["LISTEN", "SYN"]).2.accepted
        = ((FSM.init.verify_sequence ["LISTEN", "SYN"]).2.final_state == "ESTABLISHED") ∧
    (FSM.init.verify_sequence ["LISTEN", "SYN"]).2.final_state ≠ "ERROR" ∧
    (FSM.init.verify_sequence ["LISTEN", "SYN"]).2.accepted = false ∧
    (FSM.init.verify_sequence ["LISTEN", "SYN"]).2.final_state = "SYN_RECEIVED" ∧
    (∀ s ∈ (FSM.init.verify_sequence ["LISTEN", "SYN"]).2.steps, s.valid = true) :=
  all_valid_incomplete_not_accepted ["LISTEN", "SYN"] (by decide)

/-- C3: for every input sequence, `verify_sequence` processes a prefix
of the sequence, only the last collected step can be invalid, an
invalid step forces `accepted = false` with `final_state = ERROR`, the
loop stops early only because of an invalid last step, and the concrete
run ["LISTEN", "INVALID", "SYN"] collects exactly 2 steps. -/
theorem short_circuit_on_first_invalid (seq : List String) :
    ((FSM.init.verify_sequence seq).2.steps.map Step.packet
        = seq.take (FSM.init.verify_sequence seq).2.steps.length) ∧
    (∀ s ∈ (FSM.init.verify_sequence seq).2.steps.dropLast, s.valid = true) ∧
    ((∃ s ∈ (FSM.init.verify_sequence seq).2.steps, s.valid = false) →
        (FSM.init.verify_sequence seq).2.accepted = false ∧
        (FSM.init.verify_sequence seq).2.final_state = "ERROR" ∧
        ∃ st, (FSM.init.verify_sequence seq).2.steps.getLast? = some st ∧
          st.valid = false) ∧
    ((FSM.init.verify_sequence seq).2.steps.length < seq.length →
        ∃ st, (FSM.init.verify_sequence seq).2.steps.getLast? = some st ∧
          st.valid = false) ∧
    (FSM.init.verify_sequence ["LISTEN", "INVALID", "SYN"]).2.steps.length = 2 ∧
    (FSM.init.verify_sequence ["LISTEN", "INVALID", "SYN"]).2.accepted = false ∧
    (FSM.init.verify_sequence ["LISTEN", "INVALID", "SYN"]).2.final_state = "ERROR" := by
  simp only [FSM.verify_sequence]
  obtain ⟨h1, h2, h3, h4⟩ := verifyLoop_spec seq FSM.init.reset
  exact ⟨h1, h2, h3, h4, by decide, by decide, by decide⟩

/-- Witness for C3 at the concrete input ["LISTEN", "INVALID", "SYN"]. -/
theorem short_circuit_on_first_invalid_witness :
    (FSM.init.verify_sequence ["LISTEN", "INVALID", "SYN"]).2.accepted = false ∧
    (FSM.init.verify_sequence ["LISTEN", "INVALID", "SYN"]).2.final_state = "ERROR" ∧
    ∃ st, (FSM.init.verify_sequence ["LISTEN", "INVALID", "SYN"]).2.steps.getLast?
        = some st ∧ st.valid = false :=
  (short_circuit_on_first_invalid ["LISTEN", "INVALID", "SYN"]).2.2.1 (by decide)

/-- C4: ERROR is absorbing: from any instance whose cursor is ERROR
(with the table built by the constructor), a step with any symbol
whatsoever is invalid and leaves the cursor on ERROR. -/
theorem error_state_absorbing (fsm : FSM) (sym : String)
    (ht : fsm.transitions = initTransitions)
    (hc : fsm.current_state = State.ERROR) :
    (fsm.transition sym).2.success = false ∧
    (fsm.transition sym).1.current_state = State.ERROR := by
  have hl : lookupT fsm.transitions (fsm.current_state, sym) = none := by
    rw [ht, hc]
    exact lookup_error_none sym
  have h := transition_none fsm sym hl
  exact ⟨h.2.1, h.1⟩

/-- Witness for C4 at a concrete ERROR-state instance and symbol. -/
theorem error_state_absorbing_witness :
    ((FSM.mk State.ERROR [] initTransitions).transition "SYN").2.success = false ∧
    ((FSM.mk State.ERROR [] initTransitions).transition "SYN").1.current_state
        = State.ERROR :=
  error_state_absorbing (FSM.mk State.ERROR [] initTransitions) "SYN" rfl rfl

/-- C5: no entry of the transition table maps to ERROR (every target is
one of the five ordinary states), and whenever a step lands on ERROR
the table lookup for that (state, symbol) pair was a miss: ERROR is
reached only through the table-miss fallback of `transition`. -/
theorem no_table_entry_targets_error :
    (∀ kv ∈ initTransitions, kv.2 ≠ State.ERROR ∧
        kv.2 ∈ [State.CLOSED, State.LISTEN, State.SYN_SENT, State.SYN_RECEIVED,
                State.ESTABLISHED]) ∧
    (∀ (fsm : FSM) (sym : String), fsm.transitions = initTransitions →
        (fsm.transition sym).1.current_state = State.ERROR →
        lookupT initTransitions (fsm.current_state, sym) = none) := by
  constructor
  · decide
  · intro fsm sym ht herr
    cases hl : lookupT initTransitions (fsm.current_state, sym) with
    | none => rfl
    | some t =>
        have hs := transition_some fsm sym t (by rw [ht]; exact hl)
        exact absurd (hs.1.symm.trans herr) (lookup_ne_error _ _ _ hl)

/-- Witness for C5 at the concrete miss (CLOSED, "FOO"). -/
theorem no_table_entry_targets_error_witness :
    lookupT initTransitions (FSM.init.current_state, "FOO") = none :=
  no_table_entry_targets_error.2 FSM.init "FOO" rfl (by decide)

/-- C6: `transition` is total over arbitrary string symbols: for every
instance and every symbol it returns a defined outcome, which is either
a table hit (`success = true`, cursor on the mapped successor) or a
table miss reported as the normal value `success = false` with
destination ERROR — never a fault. -/
theorem transition_total_case_analysis (fsm : FSM) (sym : String) :
    ((fsm.transition sym).2.success = true ∧
      lookupT fsm.transitions (fsm.current_state, sym)
        = some (fsm.transition sym).1.current_state) ∨
    ((fsm.transition sym).2.success = false ∧
      lookupT fsm.transitions (fsm.current_state, sym) = none ∧
      (fsm.transition sym).1.current_state = State.ERROR ∧
      (fsm.transition sym).2.new_state = "ERROR") := by
  cases hl : lookupT fsm.transitions (fsm.current_state, sym) with
  | some t =>
      have hs := transition_some fsm sym t hl
      exact Or.inl ⟨hs.2, by rw [hs.1]⟩
  | none =>
      have hn := transition_none fsm sym hl
      exact Or.inr ⟨hn.2.1, rfl, hn.1, hn.2.2⟩

/-- C7: `verify_tcp_handshake` is independent of the engine state
before the call (the underlying run always resets first), and its
message is "Valid TCP handshake" exactly when the report is valid and
"Invalid packet sequence" otherwise. -/
theorem verify_handshake_reset_independent (v1 v2 : ProtocolVerifier)
    (seq : List String) (ht : v1.fsm.transitions = v2.fsm.transitions) :
    (v1.verify_tcp_handshake seq).2 = (v2.verify_tcp_handshake seq).2 ∧
    ((v1.verify_tcp_handshake seq).2.valid = true →
      (v1.verify_tcp_handshake seq).2.message = "Valid TCP handshake") ∧
    ((v1.verify_tcp_handshake seq).2.valid = false →
      (v1.verify_tcp_handshake seq).2.message = "Invalid packet sequence") := by
  have hreset : v1.fsm.reset = v2.fsm.reset := by
    show FSM.mk State.CLOSED [] v1.fsm.transitions
        = FSM.mk State.CLOSED [] v2.fsm.transitions
    rw [ht]
  have hv : v1.fsm.verify_sequence seq = v2.fsm.verify_sequence seq := by
    show (v1.fsm.reset).verifyLoop seq = (v2.fsm.reset).verifyLoop seq
    rw [hreset]
  have hmsg : (v1.verify_tcp_handshake seq).2.message
      = if (v1.verify_tcp_handshake seq).2.valid then "Valid TCP handshake"
        else "Invalid packet sequence" := rfl
  refine ⟨?_, ?_, ?_⟩
  · simp only [ProtocolVerifier.verify_tcp_handshake, hv]
  · intro h; rw [hmsg, h]; rfl
  · intro h; rw [hmsg, h]; rfl

/-- Witness for C7: two verifiers that differ in cursor and history
produce the same report for the same sequence. -/
theorem verify_handshake_reset_independent_witness :
    ((ProtocolVerifier.mk (FSM.mk State.ERROR
        [⟨"X", "CLOSED", "ERROR", false⟩] initTransitions)).verify_tcp_handshake
        ["LISTEN", "SYN", "ACK"]).2
      = ((ProtocolVerifier.mk FSM.init).verify_tcp_handshake
        ["LISTEN", "SYN", "ACK"]).2 :=
  (verify_handshake_reset_independent
    (ProtocolVerifier.mk (FSM.mk State.ERROR
      [⟨"X", "CLOSED", "ERROR", false⟩] initTransitions))
    (ProtocolVerifier.mk FSM.init) ["LISTEN", "SYN", "ACK"] rfl).1

/-- C8: the diagram export is read-only and state-independent:
`get_all_transitions` is unchanged by `verify_sequence` and
`transition` calls, depends only on the table (not on cursor or
history), and `get_transition_diagram` is unchanged by
`verify_tcp_handshake` calls. -/
theorem diagram_read_only :
    (∀ (fsm : FSM) (seq : List String),
        ((fsm.verify_sequence seq).1).get_all_transitions
          = fsm.get_all_transitions) ∧
    (∀ (fsm : FSM) (sym : String),
        ((fsm.transition sym).1).get_all_transitions
          = fsm.get_all_transitions) ∧
    (∀ fsm1 fsm2 : FSM, fsm1.transitions = fsm2.transitions →
        fsm1.get_all_transitions = fsm2.get_all_transitions) ∧
    (∀ (v : ProtocolVerifier) (seq : List String),
        ((v.verify_tcp_handshake seq).1).get_transition_diagram
          = v.get_transition_diagram) := by
  have hg : ∀ fsm1 fsm2 : FSM, fsm1.transitions = fsm2.transitions →
      fsm1.get_all_transitions = fsm2.get_all_transitions := by
    intro f1 f2 h
    simp only [FSM.get_all_transitions, h]
  have h1 : ∀ (fsm : FSM) (seq : List String),
      ((fsm.verify_sequence seq).1).get_all_transitions
        = fsm.get_all_transitions := by
    intro fsm seq
    exact hg _ _ (verifyLoop_transitions seq fsm.reset)
  have h4 : ∀ (v : ProtocolVerifier) (seq : List String),
      ((v.verify_tcp_handshake seq).1).get_transition_diagram
        = v.get_transition_diagram := by
    intro v seq
    simp only [ProtocolVerifier.get_transition_diagram]
    rw [show ((v.verify_tcp_handshake seq).1).fsm.get_all_transitions
          = v.fsm.get_all_transitions from h1 v.fsm seq]
  exact ⟨h1, fun fsm sym => hg _ _ (transition_transitions fsm sym), hg, h4⟩

/-- Witness for C8: two instances with the same table but different
cursors export the same transition list. -/
theorem diagram_read_only_witness :
    FSM.init.get_all_transitions
      = (FSM.mk State.ESTABLISHED [] initTransitions).get_all_transitions :=
  diagram_read_only.2.2.1 FSM.init (FSM.mk State.ESTABLISHED [] initTransitions) rfl

/-- C9: the empty input sequence is handled without failure:
`verify_sequence` returns `accepted = false`, an empty step list, and
`final_state = CLOSED` (the reset state). -/
theorem empty_sequence_result :
    (FSM.init.verify_sequence []).2.accepted = false ∧
    (FSM.init.verify_sequence []).2.steps = [] ∧
    (FSM.init.verify_sequence []).2.final_state = "CLOSED" := by
  decide

/-- C10: (SYN_RECEIVED, "SYN-ACK") is a valid self-loop — stepping
"SYN-ACK" from SYN_RECEIVED succeeds and stays in SYN_RECEIVED — and
for every n, the sequence ["LISTEN", "SYN"] followed by n copies of
"SYN-ACK" and then "ACK" is accepted with final state ESTABLISHED. -/
theorem synack_self_loop_pump (n : Nat) (hist : List HistoryRecord) :
    ((FSM.mk State.SYN_RECEIVED hist initTransitions).transition "SYN-ACK").2.success
        = true ∧
    ((FSM.mk State.SYN_RECEIVED hist initTransitions).transition "SYN-ACK").1.current_state
        = State.SYN_RECEIVED ∧
    (FSM.init.verify_sequence
        (["LISTEN", "SYN"] ++ List.replicate n "SYN-ACK" ++ ["ACK"])).2.accepted
        = true ∧
    (FSM.init.verify_sequence
        (["LISTEN", "SYN"] ++ List.replicate n "SYN-ACK" ++ ["ACK"])).2.final_state
        = "ESTABLISHED" := by
  have hseq : ["LISTEN", "SYN"] ++ List.replicate n "SYN-ACK" ++ ["ACK"]
      = "LISTEN" :: "SYN" :: (List.replicate n "SYN-ACK" ++ ["ACK"]) := by
    simp [List.append_assoc]
  have h1 : lookupT (FSM.init.reset).transitions
      ((FSM.init.reset).current_state, "LISTEN") = some State.LISTEN := rfl
  have hs1 := transition_some FSM.init.reset "LISTEN" _ h1
  have h2 : lookupT ((FSM.init.reset).transition "LISTEN").1.transitions
      ((((FSM.init.reset).transition "LISTEN").1).current_state, "SYN")
      = some State.SYN_RECEIVED := rfl
  have hs2 := transition_some ((FSM.init.reset).transition "LISTEN").1 "SYN" _ h2
  have ht2 : ((((FSM.init.reset).transition "LISTEN").1).transition "SYN").1.transitions
      = initTransitions := rfl
  obtain ⟨ha, hf⟩ := verifyLoop_synack n _ ht2 hs2.1
  refine ⟨rfl, rfl, ?_, ?_⟩
  · rw [hseq]
    show ((FSM.init.reset).verifyLoop
        ("LISTEN" :: "SYN" :: (List.replicate n "SYN-ACK" ++ ["ACK"]))).2.accepted = true
    rw [verifyLoop_cons_success_accepted _ _ _ hs1.2,
        verifyLoop_cons_success_accepted _ _ _ hs2.2]
    exact ha
  · rw [hseq]
    show ((FSM.init.reset).verifyLoop
        ("LISTEN" :: "SYN" :: (List.replicate n "SYN-ACK" ++ ["ACK"]))).2.final_state
        = "ESTABLISHED"
    rw [verifyLoop_cons_success_final _ _ _ hs1.2,
        verifyLoop_cons_success_final _ _ _ hs2.2]
    exact hf
